import Mathlib

/-!
Verification development for the BayesTraits application controller
(src/picrust/bayestraits.py).

The development shallowly embeds the two core components of the module:

* the script generator (make_bayestraits_script / get_bt_addmrca_commands),
* the log-output parser (parse_reconstruction_output),

together with the small Python-string utilities they rely on.  Python
strings are modelled via List Char operations; Python floats appearing in
the BayesTraits log are plain decimal literals and are modelled exactly as
decimal fractions (DecFloat below) whose comparison agrees with the
rational-number comparison (see blt_iff_val).  Python exceptions are
modelled with Except over the error taxonomy BTErr; the names of its
constructors follow the specification's error taxonomy, each one standing
for a distinct raise site in the source.

The tree object consumed by the generator is an upstream collaborator
(a PyCogent PhyloNode); its interface (tip iteration, child access,
child grouping) is modelled from the specification's collaborator
contract, as noted on the individual definitions.
-/

set_option autoImplicit false
set_option maxRecDepth 4000

namespace Picrust

/-- Decidable equality for Except, used to evaluate the embedded fallible
functions on concrete inputs. -/
instance {ε α : Type} [DecidableEq ε] [DecidableEq α] : DecidableEq (Except ε α)
  | .error e, .error f =>
    match decEq e f with
    | .isTrue h => .isTrue (by rw [h])
    | .isFalse h => .isFalse (by simpa using h)
  | .error _, .ok _ => .isFalse (by simp)
  | .ok _, .error _ => .isFalse (by simp)
  | .ok x, .ok y =>
    match decEq x y with
    | .isTrue h => .isTrue (by rw [h])
    | .isFalse h => .isFalse (by simpa using h)

/-! Python string helpers -/

/-- Character-list prefix test; listIsPre p cs is true iff p is a prefix of cs.
Models Python str.startswith via startswith below. -/
def listIsPre : List Char → List Char → Bool
  | [], _ => true
  | _ :: _, [] => false
  | a :: as, b :: bs => a = b && listIsPre as bs

/-- Model of Python s.startswith(pre). -/
def startswith (s pre : String) : Bool :=
  listIsPre pre.data s.data

/-- Split a character list on a separator character.  Agrees with Python
str.split(sep) for a one-character separator (every split in the source
uses a one-character separator). -/
def splitChar (sep : Char) : List Char → List (List Char)
  | [] => [[]]
  | c :: rest =>
    let r := splitChar sep rest
    if c = sep then [] :: r
    else
      match r with
      | [] => [[c]]
      | h :: t => (c :: h) :: t

/-- Model of Python s.split(sep) for a one-character separator. -/
def pySplit (s : String) (sep : Char) : List String :=
  (splitChar sep s.data).map String.mk

/-- Characters removed by Python str.strip(). -/
def isPySpace (c : Char) : Bool :=
  c = ' ' || c = '\t' || c = '\n' || c = '\r' || c = '\x0b' || c = '\x0c'

/-- Model of Python s.strip(). -/
def pyStrip (s : String) : String :=
  String.mk (((s.data.dropWhile isPySpace).reverse.dropWhile isPySpace).reverse)

/-- Model of Python sep.join(parts). -/
def pyJoin (sep : String) : List String → String
  | [] => ""
  | [x] => x
  | x :: xs => x ++ sep ++ pyJoin sep xs

/-- Association-list lookup; models Python dict lookup (dict.get / dict[k]). -/
def lookupA {κ ν : Type} [DecidableEq κ] : List (κ × ν) → κ → Option ν
  | [], _ => none
  | (k, v) :: t, s => if s = k then some v else lookupA t s

/-- Association-list insert-or-replace; models Python dict assignment
d[k] = v (an existing key keeps its position, a new key is appended,
matching dict insertion order). -/
def insertA {κ ν : Type} [DecidableEq κ] : List (κ × ν) → κ → ν → List (κ × ν)
  | [], k, v => [(k, v)]
  | (k', v') :: t, k, v => if k = k' then (k, v) :: t else (k', v') :: insertA t k v

/-- Lexicographic comparison of character lists by code point; models the
ordering Python sorted() uses on strings. -/
def strLeAux : List Char → List Char → Bool
  | [], _ => true
  | _ :: _, [] => false
  | a :: as, b :: bs =>
    if a.toNat < b.toNat then true
    else if b.toNat < a.toNat then false
    else strLeAux as bs

/-- String comparison used by pysortedStr. -/
def strLe (a b : String) : Bool :=
  strLeAux a.data b.data

/-- Integer comparison used by pysortedInt. -/
def intLe (a b : Int) : Bool :=
  a ≤ b

/-- Insertion into a list sorted by le. -/
def insortBy {α : Type} (le : α → α → Bool) (a : α) : List α → List α
  | [] => [a]
  | b :: t => if le a b then a :: b :: t else b :: insortBy le a t

/-- Insertion sort by le; models Python sorted() (for a total order on
elements the sorted result is unique, so the algorithm is irrelevant). -/
def pysortedBy {α : Type} (le : α → α → Bool) (l : List α) : List α :=
  l.foldr (insortBy le) []

/-- Model of Python sorted() on a list of strings. -/
def pysortedStr (l : List String) : List String :=
  pysortedBy strLe l

/-- Model of Python sorted() on a list of integers. -/
def pysortedInt (l : List Int) : List Int :=
  pysortedBy intLe l

/-! Python numeric literals -/

/-- Parse a nonempty all-digit character list as a natural number. -/
def digitsToNat (cs : List Char) : Option Nat :=
  if cs = [] then none
  else if cs.all Char.isDigit then
    some (cs.foldl (fun a c => a * 10 + (c.toNat - 48)) 0)
  else none

/-- Model of Python int(s) on plain integer literals (optional sign and
digits, the only shape occurring in the BayesTraits log). -/
def parsePyInt (s : String) : Option Int :=
  match s.data with
  | '-' :: rest => (digitsToNat rest).map (fun n => -(n : Int))
  | '+' :: rest => (digitsToNat rest).map (fun n => (n : Int))
  | cs => (digitsToNat cs).map (fun n => (n : Int))

/-- Exact decimal value mant / 10 ^ exp.  Models the Python floats of the
BayesTraits log, which are plain decimal literals; parsing is exact and
comparison (blt) agrees with the rational comparison of values. -/
structure DecFloat where
  mant : Int
  exp : Nat
deriving DecidableEq

/-- Powers of ten over Int. -/
def pow10 : Nat → Int
  | 0 => 1
  | n + 1 => 10 * pow10 n

/-- Powers of ten over Nat. -/
def pow10N : Nat → Nat
  | 0 => 1
  | n + 1 => 10 * pow10N n

/-- Strict order on decimal values; models the float comparison
float(prob) > best used in the parser's row reduction. -/
def DecFloat.blt (a b : DecFloat) : Bool :=
  a.mant * pow10 b.exp < b.mant * pow10 a.exp

/-- Rational value of a decimal; used only to state properties. -/
def DecFloat.val (d : DecFloat) : ℚ :=
  (d.mant : ℚ) / (10 : ℚ) ^ d.exp

/-- Magnitude part of parsePyFloat: digits with an optional fractional part. -/
def parsePyFloatMag (cs : List Char) : Option DecFloat :=
  match splitChar '.' cs with
  | [ip] => (digitsToNat ip).map (fun n => ⟨(n : Int), 0⟩)
  | [ip, fp] =>
    match digitsToNat ip, digitsToNat fp with
    | some n, some f => some ⟨(n : Int) * pow10 fp.length + (f : Int), fp.length⟩
    | _, _ => none
  | _ => none

/-- Model of Python float(s) on plain decimal literals (optional sign,
digits, optional fractional digits - the shape of every numeric field in
the BayesTraits ML log). -/
def parsePyFloat (s : String) : Option DecFloat :=
  match s.data with
  | '-' :: rest => (parsePyFloatMag rest).map (fun d => ⟨-d.mant, d.exp⟩)
  | '+' :: rest => parsePyFloatMag rest
  | cs => parsePyFloatMag cs

/-- Decimal digits of f, left-padded to e digits, most significant first. -/
def natDigitsPad : Nat → Nat → List Char
  | 0, _ => []
  | e + 1, f => Char.ofNat (48 + f / pow10N e) :: natDigitsPad e (f % pow10N e)

/-- Drop trailing zero characters. -/
def stripTrailingZeros (cs : List Char) : List Char :=
  (cs.reverse.dropWhile (fun c => c = '0')).reverse

/-- Model of Python str(f) for a float holding an exact decimal value:
integer part, a dot, and the fractional digits with trailing zeros
removed (a zero fractional part prints as .0, e.g. str(0.0) = "0.0"). -/
def floatStr (d : DecFloat) : String :=
  let m := d.mant.natAbs
  let ip := m / pow10N d.exp
  let fr := m % pow10N d.exp
  let fracCs := stripTrailingZeros (natDigitsPad d.exp fr)
  (if d.mant < 0 then "-" else "") ++ toString ip ++ "." ++
    (if fracCs = [] then "0" else String.mk fracCs)

/-- Model of Python str applied to a state-or-None value: str(None) is
"None", a string prints as itself. -/
def optStr : Option String → String
  | none => "None"
  | some s => s

/-! Tree collaborator (PyCogent PhyloNode) -/

/-- Rooted ordered tree with a node name, as consumed by the script
generator.  Branch lengths and parent pointers of the collaborator object
are not represented: the former are unused by the embedded code and the
latter are recovered structurally (tipsWithParents). -/
inductive PhyloNode : Type where
  | node (nm : String) (children : List PhyloNode) : PhyloNode

/-- Name of a node. -/
def PhyloNode.name : PhyloNode → String
  | .node nm _ => nm

/-- Children of a node. -/
def PhyloNode.children : PhyloNode → List PhyloNode
  | .node _ cs => cs

mutual

/-- Leaves of a tree, left to right (the tree itself if it is a leaf). -/
def leaves : PhyloNode → List PhyloNode
  | .node nm [] => [.node nm []]
  | .node _ (c :: cs) => leaves c ++ leavesOf cs

/-- Leaves of a forest, left to right. -/
def leavesOf : List PhyloNode → List PhyloNode
  | [] => []
  | c :: cs => leaves c ++ leavesOf cs

end

/-- Modelled from the spec: the collaborator's tip iteration
(tree.iterTips / entry.iterTips), which yields the tips descended from the
node in left-to-right traversal order and yields nothing when the node
itself is a tip. -/
def iterTips (t : PhyloNode) : List PhyloNode :=
  leavesOf t.children

mutual

/-- Tips of the tree paired with their parent node, in iterTips order.
Recovers structurally the tip.Parent navigation used by the generator. -/
def tipsWithParents : PhyloNode → List (PhyloNode × PhyloNode)
  | .node nm cs => twp (.node nm cs) cs

/-- Helper of tipsWithParents: tips below any node of the forest cs paired
with their parent, where p is the parent of the forest's roots. -/
def twp : PhyloNode → List PhyloNode → List (PhyloNode × PhyloNode)
  | _, [] => []
  | p, c :: cs =>
    (match c with
     | .node nm [] => [(.node nm [], p)]
     | .node nm (d :: ds) => tipsWithParents (.node nm (d :: ds))) ++ twp p cs

end

/-- Modelled from the spec: the collaborator's childGroups call on the
tip's parent.  The specification's collaborator contract says the parent's
children are grouped into child groups, a group being at minimum each
direct child, and that the generator treats each group independently and
flattens the results; the grouping is therefore invisible after
flattening, and it is modelled as one group per direct child. -/
def childGroups (p : PhyloNode) : List (List PhyloNode) :=
  p.children.map (fun c => [c])

/-- Names contributed by one group entry in get_bt_addmrca_commands: a tip
contributes its own name, an internal node contributes the names of all
tips beneath it. -/
def namesOfEntry (entry : PhyloNode) : List String :=
  match entry.children with
  | [] => [entry.name]
  | _ :: _ => (iterTips entry).map PhyloNode.name

/-- Names contributed by the entries of one group, in order. -/
def collectNames : List PhyloNode → List String
  | [] => []
  | e :: t => namesOfEntry e ++ collectNames t

/-- Names contributed by a list of groups, in order. -/
def collectGroups : List (List PhyloNode) → List String
  | [] => []
  | g :: t => collectNames g ++ collectGroups t

/-- Sibling-name collection of get_bt_addmrca_commands for one tip: all
names collected from the child groups of the tip's parent, in encounter
order, with no de-duplication (the loop over sibling_groups / group
entries at lines 208-221 of the source). -/
def sibling_names (parent : PhyloNode) : List String :=
  collectGroups (childGroups parent)

/-! Script generator -/

/-- Error taxonomy of the embedded module.  Each constructor stands for a
distinct raise site of the source; the source raises plain ValueError /
KeyError / IndexError there, distinguishable by site and message, and the
constructor names follow the specification's error taxonomy.
headerFieldParseError records the header field at which the triple-field
parse raised (the unpacking ValueError / IndexError at lines 301-306). -/
inductive BTErr : Type where
  | unsupportedMethodError
  | unsupportedAnalysisMethodError
  | emptySiblingSetError
  | headerFieldParseError (field : String)
  | malformedRowError
  | valueError
deriving DecidableEq

/-- Translation of one name through the translation table:
translation_dict.get(s, s), passing the name through unchanged when it is
absent from the table. -/
def bt_translate (translation_dict : List (String × String)) (s : String) : String :=
  (lookupA translation_dict s).getD s

/-- Embedded per-tip body of the loop of get_bt_addmrca_commands
(lines 203-232): build the ancestor label, collect and translate the
sibling names, raise on an empty list, and format the AddMRCA command
from the template "AddMRCA %s %s\n". -/
def addmrca_command (translation_dict : List (String × String))
    (tip parent : PhyloNode) : Except BTErr String :=
  let anc_node_name := "parent_of_" ++ tip.name
  let translated_sibling_names := (sibling_names parent).map (bt_translate translation_dict)
  if translated_sibling_names = [] then .error .emptySiblingSetError
  else .ok ("AddMRCA " ++ anc_node_name ++ " " ++ pyJoin " " translated_sibling_names ++ "\n")

/-- Effectful map over Except: the first error aborts, as an exception
raised inside a Python for-loop does. -/
def exMapM {α β : Type} (f : α → Except BTErr β) : List α → Except BTErr (List β)
  | [] => .ok []
  | a :: t =>
    match f a with
    | .error e => .error e
    | .ok b =>
      match exMapM f t with
      | .error e => .error e
      | .ok bs => .ok (b :: bs)

/-- Embedding of get_bt_addmrca_commands (lines 191-234): the returned
list starts with the comment line "#Add nodes to analyze\n" and continues
with one AddMRCA command per tip of the tree, in tip-iteration order. -/
def get_bt_addmrca_commands (tree : PhyloNode)
    (translation_dict : List (String × String)) : Except BTErr (List String) :=
  match exMapM (fun tp => addmrca_command translation_dict tp.1 tp.2) (tipsWithParents tree) with
  | .error e => .error e
  | .ok cmds => .ok ("#Add nodes to analyze\n" :: cmds)

/-- Header comment of the generated script (line 121). -/
def bt_script_header : String :=
  "#BayesTraits script (autogenerated)"

/-- Method menu comment block (lines 123-129), one Python string with
embedded newlines, reproduced byte for byte. -/
def method_menu : String :=
  "#Select method.  methods are:\n    #1)      MultiState. \n    #2)      Discrete: Independent model \n    #3)      Discrete: Dependent model \n    #4)      Continuous: Random Walk (Model A) \n    #5)      Continuous: Directional (Model B) \n    #6)      Continuous: Regression "

/-- Analysis-method menu comment block (lines 150-153), reproduced byte
for byte. -/
def analysis_method_menu : String :=
  "#Select the analysis method to use. \n        #1)      Maximum Likelihood. \n        #2)      MCMC"

/-- Menu responses for each supported method (lines 134-139), in the
order of the source dict literal. -/
def method_to_number : List (String × String) :=
  [("multistate", "1"), ("discrete_independent", "2"), ("discrete_dependent", "3"),
   ("continuous_random_walk", "4"), ("continuous_directional", "5"),
   ("continuous_regression", "6")]

/-- Menu responses for each supported analysis method (lines 158-159). -/
def analysis_method_to_number : List (String × String) :=
  [("ml", "1"), ("mcmc", "2")]

/-- Embedding of make_bayestraits_script (lines 92-189).  The source
appends to script_lines sequentially and finally maps l + "\n" over the
list; the sequential appends are rendered as one list expression.  The
two sentinel-string checks of the source (dict.get with a "not supported"
default followed by a comparison and raise ValueError) are rendered as
the two validation errors. -/
def make_bayestraits_script (tree : PhyloNode)
    (translation_dict : List (String × String)) (method analysis_method : String)
    (comments single_rate : Bool) : Except BTErr (List String) :=
  match lookupA method_to_number method with
  | none => .error .unsupportedMethodError
  | some method_response =>
    match lookupA analysis_method_to_number analysis_method with
    | none => .error .unsupportedAnalysisMethodError
    | some analysis_method_response =>
      match get_bt_addmrca_commands tree translation_dict with
      | .error e => .error e
      | .ok add_mrca_cmds =>
        .ok (((if comments then [bt_script_header, method_menu] else [])
          ++ [method_response]
          ++ (if comments then [analysis_method_menu] else [])
          ++ [analysis_method_response]
          ++ (if single_rate then
                (if comments then ["#Restrict to a single rate"] else [])
                  ++ ["RestrictAll q01"]
              else [])
          ++ (if comments then ["#Reconstruct parent nodes for each tip"] else [])
          ++ add_mrca_cmds
          ++ ["run"]).map (fun l => l ++ "\n"))

/-! Output parser -/

/-- Header prefix recognized by the parser (line 266). -/
def start_of_header_line : String :=
  "Tree No\tLh"

/-- Column schema inferred from the header row: the field mapping from
key to column index, and the incrementally discovered nodes, characters
and per-character states (all in encounter order, as the source's lists
built with membership-guarded appends). -/
structure Schema where
  field_mapping : List (String × Nat)
  all_nodes : List String
  all_characters : List Int
  states_by_character : List (Int × List String)
deriving DecidableEq

/-- Schema at the start of header inference. -/
def emptySchema : Schema :=
  ⟨[], [], [], []⟩

/-- Key under which a (node, character, state) column is stored in the
field mapping: the source's "%s_%s_%s" % (node, character, state). -/
def nodeCharStateKey (node : String) (character : Int) (state : String) : String :=
  node ++ "_" ++ toString character ++ "_" ++ state

/-- Text between the first "(" and the following ")" of a field part:
s.split("(")[1].split(")")[0], as an Option for the IndexError when no
"(" is present. -/
def parenInner (s : String) : Option String :=
  ((pySplit s '(')[1]?).map (fun t => (pySplit t ')').headD "")

/-- States recorded for one character: states_by_character[character]
with the defaultdict(list) default. -/
def sbcGet (st : Schema) (character : Int) : List String :=
  (lookupA st.states_by_character character).getD []

/-- Processing of one header field at column i (lines 288-318): exact
matches "Tree No" and "Lh", the rate-parameter prefix "q", the skip of
blank fields, and otherwise the triple-encoded field parse
node-Character(int)-State(string); any failure inside the triple parse is
the headerFieldParseError for this field. -/
def infer_field (st : Schema) (i : Nat) (field : String) : Except BTErr Schema :=
  if field = "Tree No" then
    .ok { st with field_mapping := insertA st.field_mapping "tree_number" i }
  else if field = "Lh" then
    .ok { st with field_mapping := insertA st.field_mapping "likelihood" i }
  else if startswith field "q" then
    .ok { st with field_mapping := insertA st.field_mapping ("rate_" ++ field) i }
  else if pyStrip field = "" then
    .ok st
  else
    match pySplit field '-' with
    | [node0, character_str, state_str] =>
      let node := pyStrip node0
      match parenInner character_str with
      | none => .error (.headerFieldParseError field)
      | some cinner =>
        match parsePyInt cinner with
        | none => .error (.headerFieldParseError field)
        | some character =>
          match parenInner state_str with
          | none => .error (.headerFieldParseError field)
          | some state =>
            .ok { field_mapping :=
                    insertA st.field_mapping (nodeCharStateKey node character state) i
                  all_nodes :=
                    if node ∈ st.all_nodes then st.all_nodes else st.all_nodes ++ [node]
                  all_characters :=
                    if character ∈ st.all_characters then st.all_characters
                    else st.all_characters ++ [character]
                  states_by_character :=
                    if state ∈ sbcGet st character then st.states_by_character
                    else insertA st.states_by_character character (sbcGet st character ++ [state]) }
    | _ => .error (.headerFieldParseError field)

/-- Fold of infer_field over the fields with their column indices
(the enumerate(fields) loop of the source). -/
def infer_fields (st : Schema) (i : Nat) : List String → Except BTErr Schema
  | [] => .ok st
  | f :: rest =>
    match infer_field st i f with
    | .error e => .error e
    | .ok st' => infer_fields st' (i + 1) rest

/-- Schema inference over the tab-split header fields (lines 286-321). -/
def infer_schema (fields : List String) : Except BTErr Schema :=
  infer_fields emptySchema 0 fields

/-- Field of the data row addressed through the schema's mapping:
data_fields[field_mapping[key]], a KeyError or IndexError being the
malformed-row failure. -/
def getField (data_fields : List String) (st : Schema) (key : String) : Except BTErr String :=
  match lookupA st.field_mapping key with
  | none => .error .malformedRowError
  | some i =>
    match data_fields[i]? with
    | none => .error .malformedRowError
    | some v => .ok v

/-- Scan of the states of one (node, character) pair (lines 339-344):
look up each state's field, parse it as a float, and retain the state
only when its probability is strictly greater than the current best. -/
def best_scan (st : Schema) (data_fields : List String) (node : String) (character : Int)
    (ml : Option String × DecFloat) : List String → Except BTErr (Option String × DecFloat)
  | [] => .ok ml
  | state :: rest =>
    match getField data_fields st (nodeCharStateKey node character state) with
    | .error e => .error e
    | .ok prob_str =>
      match parsePyFloat prob_str with
      | none => .error .valueError
      | some prob =>
        if ml.2.blt prob then best_scan st data_fields node character (some state, prob) rest
        else best_scan st data_fields node character ml rest

/-- Winning (state, probability) call for one (node, character) pair:
the states are scanned in ascending sorted order starting from the
initial best (None, 0.0). -/
def best_state (st : Schema) (data_fields : List String) (node : String)
    (character : Int) : Except BTErr (Option String × DecFloat) :=
  best_scan st data_fields node character (none, ⟨0, 0⟩) (pysortedStr (sbcGet st character))

/-- Output-table row for one node (lines 333-347): the node name and, for
each character in ascending order, the cell state|probability. -/
def node_row (st : Schema) (data_fields : List String) (node : String) : Except BTErr String :=
  match exMapM (fun character =>
      match best_state st data_fields node character with
      | .error e => .error e
      | .ok ml => .ok (pyJoin "|" [optStr ml.1, floatStr ml.2]))
    (pysortedInt st.all_characters) with
  | .error e => .error e
  | .ok cells => .ok (pyJoin "\t" (node :: cells))

/-- Reduction of one data row against the schema (lines 325-348): read
and convert the tree number and likelihood (their values feed only the
per-tree bookkeeping that the early return discards), then produce the
output header line #Trait followed by the sorted character ids and one
line per node in ascending node order, each line newline-terminated. -/
def reduce_row (st : Schema) (data_fields : List String) : Except BTErr (List String) :=
  match getField data_fields st "tree_number" with
  | .error e => .error e
  | .ok tn_str =>
    match getField data_fields st "likelihood" with
    | .error e => .error e
    | .ok lh_str =>
      match parsePyFloat lh_str, parsePyInt tn_str with
      | some _, some _ =>
        match exMapM (fun node => node_row st data_fields node) (pysortedStr st.all_nodes) with
        | .error e => .error e
        | .ok rows =>
          .ok ((("#" ++ pyJoin "\t"
              ("Trait" :: (pysortedInt st.all_characters).map (fun c => toString c)))
            :: rows).map (fun l => l ++ "\n"))
      | _, _ => .error .valueError

/-- Result of the parser.  The source function returns one of two shapes:
the per-tree results dict (reached only when the loop ends without having
reduced a data row, hence always empty) or the list of output-table
lines returned immediately after reducing the first data row. -/
inductive BTParseResult : Type where
  | perTree (results : List (Int × DecFloat))
  | table (lines : List String)
deriving DecidableEq

/-- Line loop of parse_reconstruction_output (lines 276-348): blank lines
are always skipped; before the header is parsed, lines not starting with
the header prefix are skipped and the first line starting with it has the
schema inferred from its tab-split fields; after the header, the first
non-blank line is reduced as a data row and its result returned at once. -/
def parse_loop : Option Schema → List String → Except BTErr BTParseResult
  | _, [] => .ok (.perTree [])
  | sch?, line :: rest =>
    if line = "" then parse_loop sch? rest
    else
      match sch? with
      | none =>
        if startswith line start_of_header_line then
          match infer_schema (pySplit line '\t') with
          | .error e => .error e
          | .ok sch => parse_loop (some sch) rest
        else parse_loop none rest
      | some sch =>
        match reduce_row sch (pySplit line '\t') with
        | .error e => .error e
        | .ok out => .ok (.table out)

/-- Embedding of parse_reconstruction_output (lines 249-350). -/
def parse_reconstruction_output (lines : List String) : Except BTErr BTParseResult :=
  parse_loop none lines

/-- Embedding of parse_reconstruction_output_from_string (lines 241-247). -/
def parse_reconstruction_output_from_string (s : String) : Except BTErr BTParseResult :=
  parse_reconstruction_output (pySplit s '\n')

/-- Command produced by addmrca_command for a (tip, parent) pair whose
sibling list is nonempty; used to state what get_bt_addmrca_commands
returns. -/
def tip_command (translation_dict : List (String × String))
    (tp : PhyloNode × PhyloNode) : String :=
  "AddMRCA " ++ ("parent_of_" ++ tp.1.name) ++ " " ++
    pyJoin " " ((sibling_names tp.2).map (bt_translate translation_dict)) ++ "\n"

/-! Concrete example inputs used by the claims -/

/-- Two-tip tree (A,B)root. -/
def exTreeAB : PhyloNode :=
  .node "root" [.node "A" [], .node "B" []]

/-- Binary tree ((A,B)E,(C,D)F)root of the sibling-resolution claim. -/
def exTreeC1 : PhyloNode :=
  .node "root" [.node "E" [.node "A" [], .node "B" []],
                .node "F" [.node "C" [], .node "D" []]]

/-- Internal node E of exTreeC1, the parent of tip A. -/
def exNodeE : PhyloNode :=
  .node "E" [.node "A" [], .node "B" []]

/-- Polytomy (A,B,B_prime)E, the parent of tip A in the polytomy claim. -/
def exPolyE : PhyloNode :=
  .node "E" [.node "A" [], .node "B" [], .node "B_prime" []]

/-- Literal header line of the header-inference claim. -/
def exHeaderLine : String :=
  "Tree No\tLh\tq01\tparent_of_A-Character(1)-State(0)\tparent_of_A-Character(1)-State(1)"

/-- One data row matching exHeaderLine, with probabilities 0.7 and 0.3
for the two states of (parent_of_A, 1). -/
def exDataLine : String :=
  "1\t-26.45\t0.5\t0.7\t0.3"

/-- Schema inferred from exHeaderLine. -/
def exSchema : Schema :=
  ⟨[("tree_number", 0), ("likelihood", 1), ("rate_q01", 2),
    ("parent_of_A_1_0", 3), ("parent_of_A_1_1", 4)],
   ["parent_of_A"], [1], [(1, ["0", "1"])]⟩

/-- Schema with one node n and one character 1 with states 0 and 1, used
to exercise the tie-breaking rule. -/
def exTieSchema : Schema :=
  ⟨[("n_1_0", 0), ("n_1_1", 1)], ["n"], [1], [(1, ["0", "1"])]⟩

/-! Supporting lemmas -/

/-- Cast of pow10 to the rationals. -/
theorem pow10_cast (n : Nat) : ((pow10 n : Int) : ℚ) = (10 : ℚ) ^ n := by
  induction n with
  | zero => simp [pow10]
  | succ k ih => push_cast [pow10, pow_succ] at ih ⊢; linarith

/-- Correctness of the embedded float comparison: blt is exactly the
strict order of the represented rational values, so probability
comparisons in the embedding are real-number comparisons. -/
theorem blt_iff_val (a b : DecFloat) : a.blt b = true ↔ a.val < b.val := by
  have h1 : (0 : ℚ) < (10 : ℚ) ^ a.exp := by positivity
  have h2 : (0 : ℚ) < (10 : ℚ) ^ b.exp := by positivity
  rw [DecFloat.blt, DecFloat.val, DecFloat.val, div_lt_div_iff₀ h1 h2, decide_eq_true_eq]
  constructor
  · intro h
    have h' : ((a.mant * pow10 b.exp : Int) : ℚ) < ((b.mant * pow10 a.exp : Int) : ℚ) := by
      exact_mod_cast h
    push_cast [pow10_cast] at h'
    linarith
  · intro h
    have h' : ((a.mant * pow10 b.exp : Int) : ℚ) < ((b.mant * pow10 a.exp : Int) : ℚ) := by
      push_cast [pow10_cast]
      linarith
    exact_mod_cast h'

/-- A list is a prefix of itself followed by anything. -/
theorem listIsPre_append (p t : List Char) : listIsPre p (p ++ t) = true := by
  induction p with
  | nil => rfl
  | cons a as ih => simp [listIsPre, ih]

/-- Sufficient data-level criterion for startswith. -/
theorem startswith_of_data (s pre : String) (rest : List Char)
    (h : s.data = pre.data ++ rest) : startswith s pre = true := by
  rw [startswith, h]
  exact listIsPre_append _ _

/-- The empty line does not start with the header prefix. -/
theorem startswith_empty : startswith "" start_of_header_line = false := by decide

/-- Any string continuing the AddMRCA keyword starts with it. -/
theorem startswith_AddMRCA (s : String) : startswith ("AddMRCA " ++ s) "AddMRCA" = true := by
  have h : ("AddMRCA " ++ s).data = "AddMRCA".data ++ (' ' :: s.data) := by
    rw [String.data_append]
    rfl
  exact startswith_of_data _ _ _ h

/-- Every command produced for a tip starts with the AddMRCA keyword. -/
theorem startswith_tip_command (td : List (String × String)) (tp : PhyloNode × PhyloNode) :
    startswith (tip_command td tp) "AddMRCA" = true := by
  simp only [tip_command, String.append_assoc]
  exact startswith_AddMRCA _

/-- An exMapM whose body always succeeds is the corresponding map. -/
theorem exMapM_ok {α β : Type} (f : α → Except BTErr β) (g : α → β) :
    ∀ (l : List α), (∀ x ∈ l, f x = .ok (g x)) → exMapM f l = .ok (l.map g)
  | [], _ => rfl
  | a :: t, h => by
    rw [exMapM, h a (List.mem_cons_self a t),
        exMapM_ok f g t (fun x hx => h x (List.mem_cons_of_mem _ hx))]
    rfl

/-- Lines not matching the header prefix are skipped by the parser while
it awaits the header. -/
theorem pl_skip : ∀ (noise rest : List String),
    (∀ l ∈ noise, startswith l start_of_header_line = false) →
    parse_loop none (noise ++ rest) = parse_loop none rest
  | [], _, _ => rfl
  | l :: t, rest, h => by
    have hl := h l (List.mem_cons_self l t)
    have ht : ∀ x ∈ t, startswith x start_of_header_line = false :=
      fun x hx => h x (List.mem_cons_of_mem _ hx)
    by_cases hb : l = ""
    · subst hb
      rw [List.cons_append]
      simp only [parse_loop, if_pos rfl]
      exact pl_skip t rest ht
    · rw [List.cons_append]
      simp only [parse_loop, if_neg hb, hl]
      simp only [Bool.false_eq_true, if_false]
      exact pl_skip t rest ht

/-- Blank lines after the header are skipped. -/
theorem pl_blanks (sch : Schema) : ∀ (blanks rest : List String),
    (∀ b ∈ blanks, b = "") →
    parse_loop (some sch) (blanks ++ rest) = parse_loop (some sch) rest
  | [], _, _ => rfl
  | b :: t, rest, h => by
    have hb : b = "" := h b (List.mem_cons_self b t)
    subst hb
    rw [List.cons_append]
    simp only [parse_loop, if_pos rfl]
    exact pl_blanks sch t rest (fun x hx => h x (List.mem_cons_of_mem _ hx))

/-- A run of blank lines after the header ends the loop with the empty
per-tree result. -/
theorem pl_blanks_nil (sch : Schema) : ∀ (blanks : List String),
    (∀ b ∈ blanks, b = "") → parse_loop (some sch) blanks = .ok (.perTree [])
  | [], _ => rfl
  | b :: t, h => by
    have hb : b = "" := h b (List.mem_cons_self b t)
    subst hb
    simp only [parse_loop, if_pos rfl]
    exact pl_blanks_nil sch t (fun x hx => h x (List.mem_cons_of_mem _ hx))

/-- Transition of the parser on the first header-matching line. -/
theorem pl_header (hline : String) (rest : List String)
    (hsw : startswith hline start_of_header_line = true) :
    parse_loop none (hline :: rest) =
      match infer_schema (pySplit hline '\t') with
      | .error e => .error e
      | .ok sch => parse_loop (some sch) rest := by
  have hne : hline ≠ "" := by
    intro he
    rw [he, startswith_empty] at hsw
    cases hsw
  simp only [parse_loop, if_neg hne, hsw, if_true]

/-- Transition of the parser on a header line whose inference succeeds. -/
theorem pl_header_ok (hline : String) (rest : List String) (sch : Schema)
    (hsw : startswith hline start_of_header_line = true)
    (hinf : infer_schema (pySplit hline '\t') = .ok sch) :
    parse_loop none (hline :: rest) = parse_loop (some sch) rest := by
  rw [pl_header hline rest hsw, hinf]

/-- Reduction of the first non-blank line after the header: the result is
returned at once and does not depend on the remaining lines. -/
theorem pl_data (sch : Schema) (row : String) (rest : List String) (h : row ≠ "") :
    parse_loop (some sch) (row :: rest) =
      match reduce_row sch (pySplit row '\t') with
      | .error e => .error e
      | .ok out => .ok (.table out) := by
  simp only [parse_loop, if_neg h]

mutual

/-- Projecting the tip out of each (tip, parent) pair of twp gives the
leaves of the forest. -/
theorem twp_map_fst : ∀ (p : PhyloNode) (cs : List PhyloNode),
    (twp p cs).map Prod.fst = leavesOf cs
  | _, [] => by simp [twp, leavesOf]
  | p, PhyloNode.node nm [] :: cs => by
    have ih := twp_map_fst p cs
    simp [twp, leavesOf, leaves, ih]
  | p, PhyloNode.node nm (d :: ds) :: cs => by
    have ih1 := tipsWithParents_map_fst (PhyloNode.node nm (d :: ds))
    have ih2 := twp_map_fst p cs
    simp [twp, leavesOf, leaves, iterTips, PhyloNode.children, ih1, ih2]
termination_by _ cs => sizeOf cs

/-- Projecting the tip out of each (tip, parent) pair gives iterTips. -/
theorem tipsWithParents_map_fst : ∀ (t : PhyloNode),
    (tipsWithParents t).map Prod.fst = iterTips t
  | PhyloNode.node nm cs => by
    have ih := twp_map_fst (PhyloNode.node nm cs) cs
    simp [tipsWithParents, iterTips, PhyloNode.children, ih]
termination_by t => sizeOf t

end

mutual

/-- Every pair produced by twp on a forest of children of p is a leaf
together with a node having it among its children. -/
theorem twp_tips_mem : ∀ (p : PhyloNode) (cs : List PhyloNode),
    (∀ c ∈ cs, c ∈ p.children) →
    ∀ pr ∈ twp p cs, pr.1.children = [] ∧ pr.1 ∈ pr.2.children
  | _, [], _ => by simp [twp]
  | p, PhyloNode.node nm [] :: cs, h => by
    intro pr hpr
    simp only [twp] at hpr
    rcases List.mem_append.mp hpr with h1 | h2
    · have he : pr = (PhyloNode.node nm [], p) := by simpa using h1
      subst he
      exact ⟨rfl, h _ (List.mem_cons_self _ _)⟩
    · exact twp_tips_mem p cs (fun c hc => h c (List.mem_cons_of_mem _ hc)) pr h2
  | p, PhyloNode.node nm (d :: ds) :: cs, h => by
    intro pr hpr
    simp only [twp] at hpr
    rcases List.mem_append.mp hpr with h1 | h2
    · exact tips_mem (PhyloNode.node nm (d :: ds)) pr h1
    · exact twp_tips_mem p cs (fun c hc => h c (List.mem_cons_of_mem _ hc)) pr h2
termination_by _ cs => sizeOf cs

/-- Every pair produced by tipsWithParents is a leaf together with a node
having it among its children. -/
theorem tips_mem : ∀ (t : PhyloNode), ∀ pr ∈ tipsWithParents t,
    pr.1.children = [] ∧ pr.1 ∈ pr.2.children
  | PhyloNode.node nm cs => by
    intro pr hpr
    simp only [tipsWithParents] at hpr
    exact twp_tips_mem (PhyloNode.node nm cs) cs
      (fun c hc => by simpa [PhyloNode.children] using hc) pr hpr
termination_by t => sizeOf t

end

/-- Flattening singleton child groups collects the names of the children
themselves. -/
theorem collectNames_singleton_groups : ∀ (cs : List PhyloNode),
    collectGroups (cs.map (fun c => [c])) = collectNames cs
  | [] => rfl
  | c :: cs => by
    simp [collectGroups, collectNames, collectNames_singleton_groups cs]

/-- The sibling names of a parent are the names collected from its
children in order. -/
theorem sibling_names_eq (p : PhyloNode) : sibling_names p = collectNames p.children := by
  rw [sibling_names, childGroups, collectNames_singleton_groups]

/-- A leaf among the scanned nodes contributes its own name. -/
theorem name_mem_collectNames : ∀ (cs : List PhyloNode) (t : PhyloNode),
    t ∈ cs → t.children = [] → t.name ∈ collectNames cs
  | [], t, ht, _ => absurd ht (List.not_mem_nil t)
  | c :: cs, t, ht, hleaf => by
    rcases List.mem_cons.mp ht with h | h
    · subst h
      simp only [collectNames]
      apply List.mem_append_left
      simp [namesOfEntry, hleaf]
    · simp only [collectNames]
      exact List.mem_append_right _ (name_mem_collectNames cs t h hleaf)

/-- A tip always appears among the names collected from its parent's
child groups, so the collected sibling list is never empty. -/
theorem sibling_names_ne_nil (tip parent : PhyloNode)
    (hleaf : tip.children = []) (hmem : tip ∈ parent.children) :
    sibling_names parent ≠ [] := by
  rw [sibling_names_eq]
  exact List.ne_nil_of_mem (name_mem_collectNames _ _ hmem hleaf)

/-- The per-tip command construction succeeds for every tip below a
parent that has it among its children. -/
theorem addmrca_command_ok (td : List (String × String)) (tip parent : PhyloNode)
    (hleaf : tip.children = []) (hmem : tip ∈ parent.children) :
    addmrca_command td tip parent = .ok (tip_command td (tip, parent)) := by
  have h := sibling_names_ne_nil tip parent hleaf hmem
  have h2 : (sibling_names parent).map (bt_translate td) ≠ [] := by
    simpa using h
  simp [addmrca_command, tip_command, h2]

/-- Closed form of get_bt_addmrca_commands: it always succeeds and
returns the comment line followed by one command per (tip, parent)
pair, in tip-iteration order. -/
theorem get_bt_ok_form (tree : PhyloNode) (td : List (String × String)) :
    get_bt_addmrca_commands tree td =
      .ok ("#Add nodes to analyze\n" :: (tipsWithParents tree).map (tip_command td)) := by
  rw [get_bt_addmrca_commands,
      exMapM_ok (fun tp => addmrca_command td tp.1 tp.2) (tip_command td) _ ?_]
  intro tp htp
  have hm := tips_mem tree tp htp
  exact addmrca_command_ok td tp.1 tp.2 hm.1 hm.2

/-- Values of the method menu map. -/
theorem mtn_values {m r : String} (h : lookupA method_to_number m = some r) :
    r = "1" ∨ r = "2" ∨ r = "3" ∨ r = "4" ∨ r = "5" ∨ r = "6" := by
  simp only [method_to_number, lookupA] at h
  repeat' split at h
  all_goals simp_all

/-- Values of the analysis-method menu map. -/
theorem amtn_values {m r : String} (h : lookupA analysis_method_to_number m = some r) :
    r = "1" ∨ r = "2" := by
  simp only [analysis_method_to_number, lookupA] at h
  repeat' split at h
  all_goals simp_all

/-- An unsupported method is absent from the method menu map. -/
theorem mtn_none {m : String}
    (h : m ∉ ["multistate", "discrete_independent", "discrete_dependent",
              "continuous_random_walk", "continuous_directional", "continuous_regression"]) :
    lookupA method_to_number m = none := by
  simp only [List.mem_cons, List.not_mem_nil, or_false, not_or] at h
  obtain ⟨h1, h2, h3, h4, h5, h6⟩ := h
  simp [lookupA, method_to_number, h1, h2, h3, h4, h5, h6]

/-- A supported method is present in the method menu map. -/
theorem mtn_mem_some {m : String}
    (h : m ∈ ["multistate", "discrete_independent", "discrete_dependent",
              "continuous_random_walk", "continuous_directional", "continuous_regression"]) :
    ∃ r, lookupA method_to_number m = some r := by
  fin_cases h <;> exact ⟨_, rfl⟩

/-- An unsupported analysis method is absent from its menu map. -/
theorem amtn_none {m : String} (h : m ∉ ["ml", "mcmc"]) :
    lookupA analysis_method_to_number m = none := by
  simp only [List.mem_cons, List.not_mem_nil, or_false, not_or] at h
  obtain ⟨h1, h2⟩ := h
  simp [lookupA, analysis_method_to_number, h1, h2]

/-- A supported analysis method is present in its menu map. -/
theorem amtn_mem_some {m : String} (h : m ∈ ["ml", "mcmc"]) :
    ∃ r, lookupA analysis_method_to_number m = some r := by
  fin_cases h <;> exact ⟨_, rfl⟩

/-- A method response never looks like a comment line. -/
theorem mr_no_hash {m r : String} (h : lookupA method_to_number m = some r) :
    startswith (r ++ "\n") "#" = false := by
  rcases mtn_values h with h' | h' | h' | h' | h' | h' <;> subst h' <;> decide

/-- An analysis-method response never looks like a comment line. -/
theorem ar_no_hash {m r : String} (h : lookupA analysis_method_to_number m = some r) :
    startswith (r ++ "\n") "#" = false := by
  rcases amtn_values h with h' | h' <;> subst h' <;> decide

/-- The script header comment starts with the comment marker. -/
theorem sw_hash_header : startswith (bt_script_header ++ "\n") "#" = true := by decide

/-- The method menu comment starts with the comment marker. -/
theorem sw_hash_mmenu : startswith (method_menu ++ "\n") "#" = true := by decide

/-- The analysis menu comment starts with the comment marker. -/
theorem sw_hash_amenu : startswith (analysis_method_menu ++ "\n") "#" = true := by decide

/-- The single-rate comment starts with the comment marker. -/
theorem sw_hash_restrict :
    startswith "#Restrict to a single rate\n" "#" = true := by decide

/-- The reconstruct comment starts with the comment marker. -/
theorem sw_hash_reconstruct :
    startswith "#Reconstruct parent nodes for each tip\n" "#" = true := by decide

/-- The add-nodes comment starts with the comment marker. -/
theorem sw_hash_addnodes :
    startswith "#Add nodes to analyze\n\n" "#" = true := by decide

/-- The rate-restriction directive is not a comment line. -/
theorem sw_hash_restrictall :
    startswith "RestrictAll q01\n" "#" = false := by decide

/-- The run directive is not a comment line. -/
theorem sw_hash_run : startswith "run\n" "#" = false := by decide

/-- A per-tip AddMRCA command line, with the generator's extra newline
appended, is not a comment line. -/
theorem no_hash_tip_command_nl (td : List (String × String)) (tp : PhyloNode × PhyloNode) :
    startswith (tip_command td tp ++ "\n") "#" = false := by
  simp only [tip_command, String.append_assoc]
  rw [startswith, String.data_append]
  rfl

/-- Header inference over an extended field list continues from the
schema reached on the prefix, with the column index advanced. -/
theorem infer_fields_append_ok : ∀ (xs ys : List String) (st st' : Schema) (i : Nat),
    infer_fields st i xs = .ok st' →
    infer_fields st i (xs ++ ys) = infer_fields st' (i + xs.length) ys
  | [], ys, st, st', i, h => by
    cases h
    simp [infer_fields]
  | f :: t, ys, st, st', i, h => by
    rw [List.cons_append, infer_fields]
    rw [infer_fields] at h
    cases hf : infer_field st i f with
    | error e =>
      simp only [hf] at h
      cases h
    | ok st₂ =>
      simp only [hf] at h ⊢
      rw [infer_fields_append_ok t ys st₂ st' (i + 1) h]
      have harith : i + 1 + t.length = i + (f :: t).length := by
        simp only [List.length_cons]
        omega
      rw [harith]

/-! Claim theorems -/

/-- Claim C1, counterexample: on the binary tree ((A,B)E,(C,D)F)root the
sibling list collected for tip A is not [B], and on the polytomy
(A,B,B_prime)E it is not [B, B_prime]: the code never excludes the tip
itself from the collected names. -/
theorem sibling_list_counterexample :
    sibling_names exNodeE ≠ ["B"] ∧ sibling_names exPolyE ≠ ["B", "B_prime"] := by
  decide

/-- Claim C1, amended: for the binary tree ((A,B)E,(C,D)F)root, sibling
resolution for tip A returns [A, B] - the tip's own name is included,
first in encounter order - and for the polytomy (A,B,B_prime)E it
returns [A, B, B_prime]; accordingly the generated command for tip A is
AddMRCA parent_of_A A B. -/
theorem sibling_list_includes_tip :
    sibling_names exNodeE = ["A", "B"]
    ∧ sibling_names exPolyE = ["A", "B", "B_prime"]
    ∧ get_bt_addmrca_commands exTreeC1 [] = .ok ["#Add nodes to analyze\n",
        "AddMRCA parent_of_A A B\n", "AddMRCA parent_of_B A B\n",
        "AddMRCA parent_of_C C D\n", "AddMRCA parent_of_D C D\n"] := by
  refine ⟨by decide, by decide, by decide⟩

/-- Claim C2: the parser discards every line that does not begin with
the header prefix Tree No-tab-Lh while awaiting the header; on the first
matching line it infers the schema; and after skipping blank lines it
returns immediately after reducing the first non-blank data row, its
result being the reduction of that row alone, independent of all
subsequent lines. -/
theorem parser_two_state_flow :
    (∀ (noise rest : List String),
       (∀ l ∈ noise, startswith l start_of_header_line = false) →
       parse_reconstruction_output (noise ++ rest) = parse_reconstruction_output rest)
    ∧ (∀ (hline : String) (sch : Schema) (blanks : List String) (row : String)
         (rest : List String),
       startswith hline start_of_header_line = true →
       infer_schema (pySplit hline '\t') = .ok sch →
       (∀ b ∈ blanks, b = "") → row ≠ "" →
       parse_reconstruction_output (hline :: (blanks ++ row :: rest)) =
         match reduce_row sch (pySplit row '\t') with
         | .error e => .error e
         | .ok out => .ok (.table out)) := by
  constructor
  · exact fun noise rest h => pl_skip noise rest h
  · intro hline sch blanks row rest hsw hinf hb hrow
    rw [parse_reconstruction_output, pl_header_ok hline _ sch hsw hinf,
        pl_blanks sch blanks (row :: rest) hb, pl_data sch row rest hrow]

/-- Witness for C2 at concrete inputs: a junk line before the header is
discarded, and with a blank line between header and data row the parser
returns the reduction of that first data row, ignoring a later row. -/
theorem parser_two_state_flow_witness :
    parse_reconstruction_output (["junk"] ++ [exHeaderLine, exDataLine]) =
      parse_reconstruction_output [exHeaderLine, exDataLine]
    ∧ parse_reconstruction_output (exHeaderLine :: ([""] ++ exDataLine :: ["2\t-30.0\t0.5\t0.1\t0.9"])) =
        match reduce_row exSchema (pySplit exDataLine '\t') with
        | .error e => .error e
        | .ok out => .ok (.table out) :=
  ⟨parser_two_state_flow.1 ["junk"] [exHeaderLine, exDataLine] (by decide),
   parser_two_state_flow.2 exHeaderLine exSchema [""] exDataLine ["2\t-30.0\t0.5\t0.1\t0.9"]
     (by decide) (by decide) (by decide) (by decide)⟩

/-- Claim C3: row reduction scans each (node, character) pair's states
in ascending sorted order with initial best (absent state, 0.0) and
retains a state only on a strictly greater parsed probability, so an
exact probability tie keeps the earlier state of the sorted order; in
particular with probabilities 0.7 for state 0 and 0.3 for state 1 of
(parent_of_A, 1) the winning call is (0, 0.7). -/
theorem row_reduction_argmax :
    (∀ (st : Schema) (fields : List String) (node : String) (c : Int),
       best_state st fields node c =
         best_scan st fields node c (none, ⟨0, 0⟩) (pysortedStr (sbcGet st c)))
    ∧ (∀ (st : Schema) (fields : List String) (node : String) (c : Int)
         (s₁ s₂ ps₁ ps₂ : String) (p₁ p₂ : DecFloat),
       pysortedStr (sbcGet st c) = [s₁, s₂] →
       getField fields st (nodeCharStateKey node c s₁) = .ok ps₁ →
       parsePyFloat ps₁ = some p₁ →
       getField fields st (nodeCharStateKey node c s₂) = .ok ps₂ →
       parsePyFloat ps₂ = some p₂ →
       p₁.val = p₂.val → 0 < p₁.val →
       best_state st fields node c = .ok (some s₁, p₁))
    ∧ (infer_schema (pySplit exHeaderLine '\t')).bind
        (fun sch => best_state sch (pySplit exDataLine '\t') "parent_of_A" 1) =
        .ok (some "0", ⟨7, 1⟩)
    ∧ DecFloat.val ⟨7, 1⟩ = 7 / 10 := by
  refine ⟨fun _ _ _ _ => rfl, ?_, by decide, by norm_num [DecFloat.val]⟩
  intro st fields node c s₁ s₂ ps₁ ps₂ p₁ p₂ hsort h₁ hp₁ h₂ hp₂ heq hpos
  rw [best_state, hsort]
  have hblt0 : (DecFloat.mk 0 0).blt p₁ = true := by
    rw [blt_iff_val]
    simpa [DecFloat.val] using hpos
  have hbltp : p₁.blt p₂ = false := by
    rw [← Bool.not_eq_true, blt_iff_val, heq]
    exact lt_irrefl _
  simp [best_scan, h₁, hp₁, h₂, hp₂, hblt0, hbltp]

/-- Witness for C3's tie rule at a concrete input: two value-equal
probabilities 0.5 and 0.50 for the sorted states 0 and 1 give the
earlier state 0 as the winning call. -/
theorem row_reduction_argmax_witness :
    best_state exTieSchema ["0.5", "0.50"] "n" 1 = .ok (some "0", ⟨5, 1⟩) :=
  row_reduction_argmax.2.1 exTieSchema ["0.5", "0.50"] "n" 1 "0" "1" "0.5" "0.50" ⟨5, 1⟩ ⟨50, 2⟩
    (by decide) (by decide) (by decide) (by decide) (by decide)
    (by norm_num [DecFloat.val]) (by norm_num [DecFloat.val])

/-- Claim C4, violated by the code: get_bt_addmrca_commands already
newline-terminates its lines and make_bayestraits_script appends a
further newline to every element, so the AddMRCA lines (and the
generator's embedded comment line) end in two newline characters and the
script text contains blank lines. -/
theorem addmrca_lines_double_newline :
    make_bayestraits_script exTreeAB [] "multistate" "ml" false false =
      .ok ["1\n", "1\n", "#Add nodes to analyze\n\n", "AddMRCA parent_of_A A B\n\n",
           "AddMRCA parent_of_B A B\n\n", "run\n"]
    ∧ "" ∈ pySplit "AddMRCA parent_of_A A B\n\n" '\n' := by
  refine ⟨by decide, by decide⟩

/-- Claim C7: header inference on the literal tab-separated example line
classifies column 0 as tree_number, column 1 as likelihood, column 2 as
the rate parameter q01, and records the triple keys (parent_of_A, 1, 0)
and (parent_of_A, 1, 1) at columns 3 and 4. -/
theorem header_inference_example :
    infer_schema (pySplit exHeaderLine '\t') = .ok exSchema
    ∧ lookupA exSchema.field_mapping "tree_number" = some 0
    ∧ lookupA exSchema.field_mapping "likelihood" = some 1
    ∧ lookupA exSchema.field_mapping "rate_q01" = some 2
    ∧ lookupA exSchema.field_mapping (nodeCharStateKey "parent_of_A" 1 "0") = some 3
    ∧ lookupA exSchema.field_mapping (nodeCharStateKey "parent_of_A" 1 "1") = some 4
    ∧ exSchema.all_nodes = ["parent_of_A"]
    ∧ exSchema.all_characters = [1]
    ∧ sbcGet exSchema 1 = ["0", "1"] := by
  refine ⟨by decide, by decide, by decide, by decide, by decide, by decide, by decide,
    by decide, by decide⟩

/-- Claim C10: when no line begins with the header prefix, or when a
header line (with inferable schema) is followed only by blank lines, the
parser returns the empty per-tree-results mapping; when a data row is
reduced it instead returns the list of newline-terminated output-table
lines, so the shape of the return value depends on whether a data row
was reduced. -/
theorem parser_return_shape :
    (∀ (lines : List String),
       (∀ l ∈ lines, startswith l start_of_header_line = false) →
       parse_reconstruction_output lines = .ok (.perTree []))
    ∧ (∀ (noise : List String) (hline : String) (sch : Schema) (blanks : List String),
       (∀ l ∈ noise, startswith l start_of_header_line = false) →
       startswith hline start_of_header_line = true →
       infer_schema (pySplit hline '\t') = .ok sch →
       (∀ b ∈ blanks, b = "") →
       parse_reconstruction_output (noise ++ hline :: blanks) = .ok (.perTree []))
    ∧ parse_reconstruction_output [exHeaderLine, exDataLine] =
        .ok (.table ["#Trait\t1\n", "parent_of_A\t0|0.7\n"]) := by
  refine ⟨?_, ?_, by decide⟩
  · intro lines h
    have h' := pl_skip lines [] h
    rw [List.append_nil] at h'
    exact h'
  · intro noise hline sch blanks hn hsw hinf hb
    rw [parse_reconstruction_output, pl_skip noise _ hn, pl_header_ok hline _ sch hsw hinf,
        pl_blanks_nil sch blanks hb]

/-- Witness for C10 at concrete inputs: an input with no header line and
an input with a header line followed by one blank line both yield the
empty per-tree mapping. -/
theorem parser_return_shape_witness :
    parse_reconstruction_output ["no header here"] = .ok (.perTree [])
    ∧ parse_reconstruction_output ([] ++ exHeaderLine :: [""]) = .ok (.perTree []) :=
  ⟨parser_return_shape.1 ["no header here"] (by decide),
   parser_return_shape.2.1 [] exHeaderLine exSchema [""]
     (by decide) (by decide) (by decide) (by decide)⟩

/-- Claim C5, counterexample: with comments disabled the generated
script still contains a comment line - the "#Add nodes to analyze" line
contributed unconditionally by get_bt_addmrca_commands - so the script
generated with include_comments set to false is not comment-free. -/
theorem comments_false_counterexample :
    make_bayestraits_script exTreeAB [] "multistate" "ml" false false =
      .ok ["1\n", "1\n", "#Add nodes to analyze\n\n", "AddMRCA parent_of_A A B\n\n",
           "AddMRCA parent_of_B A B\n\n", "run\n"]
    ∧ startswith "#Add nodes to analyze\n\n" "#" = true := by
  refine ⟨by decide, by decide⟩

/-- Claim C5, amended: for any tree, translation table and arguments for
which generation succeeds, the script generated with comments disabled
still contains exactly one comment line - filtering it to the lines
beginning with the character # leaves precisely the "#Add nodes to
analyze" line contributed by the AddMRCA builder - while its sequence of
non-comment command lines is identical to that of the script generated
with comments enabled. -/
theorem comment_lines_only_difference :
    ∀ (tree : PhyloNode) (td : List (String × String)) (m am : String) (sr : Bool)
      (L₁ L₂ : List String),
      make_bayestraits_script tree td m am true sr = .ok L₁ →
      make_bayestraits_script tree td m am false sr = .ok L₂ →
      L₁.filter (fun l => !(startswith l "#")) = L₂.filter (fun l => !(startswith l "#"))
      ∧ L₂.filter (fun l => startswith l "#") = ["#Add nodes to analyze\n\n"] := by
  intro tree td m am sr L₁ L₂ h₁ h₂
  rcases hm : lookupA method_to_number m with _ | mr
  · rw [make_bayestraits_script, hm] at h₁
    simp at h₁
  rcases ha : lookupA analysis_method_to_number am with _ | ar
  · rw [make_bayestraits_script, hm, ha] at h₁
    simp at h₁
  rw [make_bayestraits_script, hm, ha, get_bt_ok_form] at h₁ h₂
  have e₁ := Except.ok.inj h₁
  have e₂ := Except.ok.inj h₂
  subst e₁
  subst e₂
  have hmr := mr_no_hash hm
  have har := ar_no_hash ha
  constructor
  · cases sr <;>
      simp [List.map_append, List.filter_append, List.filter_cons,
        sw_hash_header, sw_hash_mmenu, sw_hash_amenu, sw_hash_restrict,
        sw_hash_reconstruct, sw_hash_addnodes, sw_hash_restrictall, sw_hash_run,
        hmr, har]
  · have hpairs : List.filter (fun l => startswith l "#")
        (List.map ((fun l => l ++ "\n") ∘ tip_command td) (tipsWithParents tree)) = [] := by
      rw [List.filter_eq_nil_iff]
      intro a ha'
      obtain ⟨tp, _, rfl⟩ := List.mem_map.mp ha'
      rw [Function.comp_apply, no_hash_tip_command_nl]
      simp
    cases sr <;>
      simp [List.map_append, List.filter_append, List.filter_cons,
        sw_hash_addnodes, sw_hash_restrictall, sw_hash_run, hmr, har, hpairs]

/-- Witness for C5 at a concrete input: the scripts for the tree
(A,B)root with comments enabled and disabled have identical non-comment
lines, and filtering the disabled-comments script to its comment lines
leaves exactly the add-nodes comment line. -/
theorem comment_lines_only_difference_witness :
    List.filter (fun l => !(startswith l "#"))
        [bt_script_header ++ "\n", method_menu ++ "\n", "1\n", analysis_method_menu ++ "\n",
         "1\n", "#Reconstruct parent nodes for each tip\n", "#Add nodes to analyze\n\n",
         "AddMRCA parent_of_A A B\n\n", "AddMRCA parent_of_B A B\n\n", "run\n"] =
      List.filter (fun l => !(startswith l "#"))
        ["1\n", "1\n", "#Add nodes to analyze\n\n", "AddMRCA parent_of_A A B\n\n",
         "AddMRCA parent_of_B A B\n\n", "run\n"]
    ∧ List.filter (fun l => startswith l "#")
        ["1\n", "1\n", "#Add nodes to analyze\n\n", "AddMRCA parent_of_A A B\n\n",
         "AddMRCA parent_of_B A B\n\n", "run\n"] = ["#Add nodes to analyze\n\n"] :=
  comment_lines_only_difference exTreeAB [] "multistate" "ml" false
    [bt_script_header ++ "\n", method_menu ++ "\n", "1\n", analysis_method_menu ++ "\n",
     "1\n", "#Reconstruct parent nodes for each tip\n", "#Add nodes to analyze\n\n",
     "AddMRCA parent_of_A A B\n\n", "AddMRCA parent_of_B A B\n\n", "run\n"]
    ["1\n", "1\n", "#Add nodes to analyze\n\n", "AddMRCA parent_of_A A B\n\n",
     "AddMRCA parent_of_B A B\n\n", "run\n"]
    (by decide) (by decide)

/-- Claim C6: a method outside the supported six fails with the
unsupported-method error and a supported method with an analysis method
outside ml and mcmc fails with the unsupported-analysis-method error
(both before any lines are returned, the result being an error); for
valid values of both the generation succeeds. -/
theorem method_validation_errors :
    (∀ (tree : PhyloNode) (td : List (String × String)) (am : String) (c sr : Bool)
       (m : String),
       m ∉ ["multistate", "discrete_independent", "discrete_dependent",
            "continuous_random_walk", "continuous_directional", "continuous_regression"] →
       make_bayestraits_script tree td m am c sr = .error .unsupportedMethodError)
    ∧ (∀ (tree : PhyloNode) (td : List (String × String)) (m am : String) (c sr : Bool),
       m ∈ ["multistate", "discrete_independent", "discrete_dependent",
            "continuous_random_walk", "continuous_directional", "continuous_regression"] →
       am ∉ ["ml", "mcmc"] →
       make_bayestraits_script tree td m am c sr = .error .unsupportedAnalysisMethodError)
    ∧ (∀ (tree : PhyloNode) (td : List (String × String)) (m am : String) (c sr : Bool),
       m ∈ ["multistate", "discrete_independent", "discrete_dependent",
            "continuous_random_walk", "continuous_directional", "continuous_regression"] →
       am ∈ ["ml", "mcmc"] →
       ∃ L, make_bayestraits_script tree td m am c sr = .ok L) := by
  refine ⟨?_, ?_, ?_⟩
  · intro tree td am c sr m hm
    rw [make_bayestraits_script, mtn_none hm]
  · intro tree td m am c sr hm ham
    obtain ⟨r, hr⟩ := mtn_mem_some hm
    rw [make_bayestraits_script, hr, amtn_none ham]
  · intro tree td m am c sr hm ham
    obtain ⟨r, hr⟩ := mtn_mem_some hm
    obtain ⟨a, ha⟩ := amtn_mem_some ham
    rw [make_bayestraits_script, hr, ha, get_bt_ok_form]
    exact ⟨_, rfl⟩

/-- Witness for C6 at concrete inputs: the method bogus raises the
unsupported-method error, the analysis method bogus raises the
unsupported-analysis-method error, and multistate with ml succeeds. -/
theorem method_validation_errors_witness :
    make_bayestraits_script exTreeAB [] "bogus" "ml" false false =
      .error .unsupportedMethodError
    ∧ make_bayestraits_script exTreeAB [] "multistate" "bogus" false false =
        .error .unsupportedAnalysisMethodError
    ∧ ∃ L, make_bayestraits_script exTreeAB [] "multistate" "ml" false false = .ok L :=
  ⟨method_validation_errors.1 exTreeAB [] "ml" false false "bogus" (by decide),
   method_validation_errors.2.1 exTreeAB [] "multistate" "bogus" false false
     (by decide) (by decide),
   method_validation_errors.2.2 exTreeAB [] "multistate" "ml" false false
     (by decide) (by decide)⟩

/-- Claim C8: a non-blank header field that is not Tree No, not Lh and
does not start with q, and that does not split on the dash into exactly
three parts, makes header inference fail with the header-field parse
error naming that field - at the field itself, and for the whole header
whenever the preceding fields were processed successfully - rather than
being silently skipped. -/
theorem malformed_header_field_fails :
    (∀ (field : String) (st : Schema) (i : Nat),
       field ≠ "Tree No" → field ≠ "Lh" → startswith field "q" = false →
       pyStrip field ≠ "" → (pySplit field '-').length ≠ 3 →
       infer_field st i field = .error (.headerFieldParseError field))
    ∧ (∀ (pre : List String) (field : String) (post : List String) (st : Schema),
       infer_fields emptySchema 0 pre = .ok st →
       field ≠ "Tree No" → field ≠ "Lh" → startswith field "q" = false →
       pyStrip field ≠ "" → (pySplit field '-').length ≠ 3 →
       infer_schema (pre ++ field :: post) = .error (.headerFieldParseError field)) := by
  have part1 : ∀ (field : String) (st : Schema) (i : Nat),
      field ≠ "Tree No" → field ≠ "Lh" → startswith field "q" = false →
      pyStrip field ≠ "" → (pySplit field '-').length ≠ 3 →
      infer_field st i field = .error (.headerFieldParseError field) := by
    intro field st i h1 h2 h3 h4 h5
    rw [infer_field, if_neg h1, if_neg h2, if_neg (by simp [h3]), if_neg h4]
    rcases hs : pySplit field '-' with _ | ⟨a, _ | ⟨b, _ | ⟨c, _ | ⟨d, l⟩⟩⟩⟩
    · rfl
    · rfl
    · rfl
    · exact absurd (by rw [hs]; rfl) h5
    · rfl
  refine ⟨part1, ?_⟩
  intro pre field post st hpre h1 h2 h3 h4 h5
  rw [infer_schema, infer_fields_append_ok pre (field :: post) emptySchema st 0 hpre,
      infer_fields, part1 field st _ h1 h2 h3 h4 h5]

/-- Witness for C8 at a concrete input: the field malformed_field_name
(after a well-formed Tree No and Lh) makes header inference fail with
the header-field parse error naming it. -/
theorem malformed_header_field_fails_witness :
    infer_schema (["Tree No", "Lh"] ++ "malformed_field_name" :: []) =
      .error (.headerFieldParseError "malformed_field_name") :=
  malformed_header_field_fails.2 ["Tree No", "Lh"] "malformed_field_name" []
    ⟨[("tree_number", 0), ("likelihood", 1)], [], [], []⟩
    (by decide) (by decide) (by decide) (by decide) (by decide) (by decide)

/-- Claim C9: whenever command generation succeeds the returned sequence
contains exactly one AddMRCA command per tip - the command at position
i + 1 carries the label parent_of_ followed by the name of the i-th tip -
so the number of AddMRCA commands equals the number of tips; every
collected sibling name passes through the translation table, unchanged
when absent from it. -/
theorem one_addmrca_per_tip :
    ∀ (tree : PhyloNode) (td : List (String × String)) (cmds : List String),
      get_bt_addmrca_commands tree td = .ok cmds →
      (cmds.filter (fun l => startswith l "AddMRCA")).length = (iterTips tree).length
      ∧ (∀ (i : Nat) (tp : PhyloNode × PhyloNode),
           (tipsWithParents tree)[i]? = some tp →
           cmds[i + 1]? = some ("AddMRCA " ++ ("parent_of_" ++ tp.1.name) ++ " " ++
             pyJoin " " ((sibling_names tp.2).map (bt_translate td)) ++ "\n"))
      ∧ (∀ s, lookupA td s = none → bt_translate td s = s) := by
  intro tree td cmds h
  rw [get_bt_ok_form] at h
  injection h with h
  subst h
  refine ⟨?_, ?_, ?_⟩
  · have hhead : startswith "#Add nodes to analyze\n" "AddMRCA" = false := by decide
    have hkeep : ((tipsWithParents tree).map (tip_command td)).filter
        (fun l => startswith l "AddMRCA") = (tipsWithParents tree).map (tip_command td) :=
      List.filter_eq_self.mpr (by
        intro a ha
        obtain ⟨tp, _, rfl⟩ := List.mem_map.mp ha
        exact startswith_tip_command td tp)
    have hlen : (tipsWithParents tree).length = (iterTips tree).length := by
      rw [← tipsWithParents_map_fst tree, List.length_map]
    rw [List.filter_cons, hhead]
    simp only [Bool.false_eq_true, if_false, hkeep, List.length_map, hlen]
  · intro i tp htp
    rw [List.getElem?_cons_succ, List.getElem?_map, htp]
    rfl
  · intro s hs
    rw [bt_translate, hs]
    rfl

/-- Witness for C9 at a concrete input: on the tree ((A,B)E,(C,D)F)root
with translation table mapping A to 1, the four commands after the
comment line are exactly the AddMRCA count for the four tips, the first
tip's command is AddMRCA parent_of_A 1 B (its sibling A translated to 1,
B passed through), and a name absent from the table passes through. -/
theorem one_addmrca_per_tip_witness :
    ((["#Add nodes to analyze\n", "AddMRCA parent_of_A 1 B\n", "AddMRCA parent_of_B 1 B\n",
       "AddMRCA parent_of_C C D\n", "AddMRCA parent_of_D C D\n"] :
        List String).filter (fun l => startswith l "AddMRCA")).length =
      (iterTips exTreeC1).length
    ∧ bt_translate [("A", "1")] "Q" = "Q" :=
  ⟨(one_addmrca_per_tip exTreeC1 [("A", "1")]
      ["#Add nodes to analyze\n", "AddMRCA parent_of_A 1 B\n", "AddMRCA parent_of_B 1 B\n",
       "AddMRCA parent_of_C C D\n", "AddMRCA parent_of_D C D\n"] (by decide)).1,
   (one_addmrca_per_tip exTreeC1 [("A", "1")]
      ["#Add nodes to analyze\n", "AddMRCA parent_of_A 1 B\n", "AddMRCA parent_of_B 1 B\n",
       "AddMRCA parent_of_C C D\n", "AddMRCA parent_of_D C D\n"] (by decide)).2.2
     "Q" (by decide)⟩

end Picrust
